import Mathlib

/-!
Verification of the nuxt-ai-chatbot streaming chat core.

The definitions below are a shallow embedding of the TypeScript sources:
  * `src/unnamed/part_000` — the streaming `useChat` composable
    (`buildHistory`, `postProcessMarkdown`, `parseSSELine`,
    `appendToMessage`, `send`, `reset`);
  * `src/server/api/chat.post.ts` — the server-side stream adapter.

JavaScript strings are modelled as Lean `String`/`List Char`; `JSON.parse`
and `JSON.stringify` are modelled by an executable recursive-descent
parser / renderer over an explicit `Json` inductive.  All recursion is
structural (fuel-indexed where needed) so every definition evaluates
inside the kernel.
-/

/-- The backtick character, written via its code point. -/
def backtick : Char := Char.ofNat 96

/-- Does the character list start with the given pattern? -/
def seqStartsWith : List Char → List Char → Bool
  | _, [] => true
  | [], _ :: _ => false
  | c :: l, p :: ps => c = p && seqStartsWith l ps

/-- Does the character list contain the given pattern as a contiguous run? -/
def seqContains : List Char → List Char → Bool
  | l, pat =>
    match l with
    | [] => pat.isEmpty
    | _ :: rest => seqStartsWith l pat || seqContains rest pat

/-- Model of JavaScript `String.prototype.includes`. -/
def strIncludes (s pat : String) : Bool :=
  seqContains s.data pat.data

/-- Whitespace for JavaScript `trim` (the ASCII whitespace characters).
All string primitives below are defined on the character list so that
they evaluate inside the kernel (the built-in `String` operations use
byte positions and well-founded recursion, which do not reduce). -/
def jsWs (c : Char) : Bool :=
  (c == ' ') || (c == '\t') || (c == '\n') || (c == '\r') ||
    (c == Char.ofNat 11) || (c == Char.ofNat 12)

/-- Model of JavaScript `String.prototype.trim`. -/
def jsTrim (s : String) : String :=
  String.mk (((s.data.dropWhile jsWs).reverse.dropWhile jsWs).reverse)

/-- Model of JavaScript `String.prototype.slice(n)` for `n ≥ 0`. -/
def jsDrop (s : String) (n : Nat) : String :=
  String.mk (s.data.drop n)

/-- Model of JavaScript `String.prototype.substring(0, n)`. -/
def jsTake (s : String) (n : Nat) : String :=
  String.mk (s.data.take n)

/-- Model of JavaScript `String.prototype.startsWith`. -/
def jsStartsWith (s pat : String) : Bool :=
  seqStartsWith s.data pat.data

/-- ASCII lower-casing of one character. -/
def asciiLower (c : Char) : Char :=
  if 'A' ≤ c ∧ c ≤ 'Z' then Char.ofNat (c.toNat + 32) else c

/-- Model of JavaScript `String.prototype.toLowerCase` (ASCII range). -/
def jsToLower (s : String) : String :=
  String.mk (s.data.map asciiLower)

/-- Model of JavaScript `s.endsWith("\n")`: the last character is a newline. -/
def endsLF (l : List Char) : Bool :=
  match l.getLast? with
  | some c => c = '\n'
  | none => false

/-- JSON values, the result type of the model of `JSON.parse`. -/
inductive Json where
  | null : Json
  | bool (b : Bool) : Json
  | num (lit : String) : Json
  | str (s : String) : Json
  | arr (elems : List Json) : Json
  | obj (fields : List (String × Json)) : Json

/-- Whitespace skipping for the JSON grammar (space, tab, CR, LF). -/
def jsonSkipWs : List Char → List Char
  | c :: cs => if c = ' ' ∨ c = '\t' ∨ c = '\n' ∨ c = '\r' then jsonSkipWs cs else c :: cs
  | [] => []

/-- Value of a hexadecimal digit, if any. -/
def hexVal (c : Char) : Option Nat :=
  if '0' ≤ c ∧ c ≤ '9' then some (c.toNat - '0'.toNat)
  else if 'a' ≤ c ∧ c ≤ 'f' then some (c.toNat - 'a'.toNat + 10)
  else if 'A' ≤ c ∧ c ≤ 'F' then some (c.toNat - 'A'.toNat + 10)
  else none

/-- Parse the body of a JSON string literal (the opening quote already
consumed), handling escapes; raw control characters are rejected as in
strict JSON. -/
def jsonParseString : List Char → List Char → Option (String × List Char)
  | acc, '"' :: rest => some (String.mk acc.reverse, rest)
  | acc, '\\' :: e :: rest =>
    if e = '"' then jsonParseString ('"' :: acc) rest
    else if e = '\\' then jsonParseString ('\\' :: acc) rest
    else if e = '/' then jsonParseString ('/' :: acc) rest
    else if e = 'n' then jsonParseString ('\n' :: acc) rest
    else if e = 't' then jsonParseString ('\t' :: acc) rest
    else if e = 'r' then jsonParseString ('\r' :: acc) rest
    else if e = 'b' then jsonParseString (Char.ofNat 8 :: acc) rest
    else if e = 'f' then jsonParseString (Char.ofNat 12 :: acc) rest
    else if e = 'u' then
      match rest with
      | h1 :: h2 :: h3 :: h4 :: rest2 =>
        match hexVal h1, hexVal h2, hexVal h3, hexVal h4 with
        | some v1, some v2, some v3, some v4 =>
          jsonParseString (Char.ofNat (((v1 * 16 + v2) * 16 + v3) * 16 + v4) :: acc) rest2
        | _, _, _, _ => none
      | _ => none
    else none
  | acc, c :: rest =>
    if c.toNat < 32 then none else jsonParseString (c :: acc) rest
  | _, [] => none

/-- Consume a run of decimal digits, returning them and the rest. -/
def jsonDigits : List Char → List Char × List Char
  | c :: cs =>
    if c.isDigit then
      let (ds, rest) := jsonDigits cs
      (c :: ds, rest)
    else ([], c :: cs)
  | [] => ([], [])

/-- Parse a JSON number literal per the strict JSON grammar
(`-? (0 | [1-9][0-9]*) frac? exp?`), keeping the matched text. -/
def jsonParseNum (cs : List Char) : Option (String × List Char) :=
  let (sign, cs1) :=
    match cs with
    | '-' :: rest => (['-'], rest)
    | rest => (([] : List Char), rest)
  match cs1 with
  | c :: cs2 =>
    if ¬ c.isDigit then none
    else
      let (intPart, cs3) :=
        if c = '0' then ([c], cs2)
        else
          let (ds, rest) := jsonDigits cs2
          (c :: ds, rest)
      let (fracPart, cs4) :=
        match cs3 with
        | '.' :: d :: rest =>
          if d.isDigit then
            let (ds, rest2) := jsonDigits rest
            ('.' :: d :: ds, rest2)
          else (([] : List Char), cs3)
        | _ => (([] : List Char), cs3)
      let (expPart, cs5) :=
        match cs4 with
        | e :: rest =>
          if e = 'e' ∨ e = 'E' then
            match rest with
            | s :: d :: rest2 =>
              if (s = '+' ∨ s = '-') ∧ d.isDigit then
                let (ds, rest3) := jsonDigits rest2
                (e :: s :: d :: ds, rest3)
              else if s.isDigit then
                let (ds, rest3) := jsonDigits rest2
                (e :: s :: ds, d :: rest3)
              else (([] : List Char), cs4)
            | [s] =>
              if s.isDigit then ([e, s], ([] : List Char)) else (([] : List Char), cs4)
            | [] => (([] : List Char), cs4)
          else (([] : List Char), cs4)
        | [] => (([] : List Char), cs4)
      some (String.mk (sign ++ intPart ++ fracPart ++ expPart), cs5)
  | [] => none

/-- Parser modes: a plain value, the start / continuation of an array,
and the start / member / continuation of an object. -/
inductive JPMode where
  | val : JPMode
  | arrStart : JPMode
  | arrCont (acc : List Json) : JPMode
  | objStart : JPMode
  | objMember (acc : List (String × Json)) : JPMode
  | objCont (acc : List (String × Json)) : JPMode

/-- One fuel-indexed step function covering JSON values, arrays and
objects.  Fuel strictly decreases on every recursive call, so the
recursion is structural on `Nat` and reduces in the kernel. -/
def jsonParseStep : Nat → JPMode → List Char → Option (Json × List Char)
  | 0, _, _ => none
  | Nat.succ f, JPMode.val, cs =>
    match jsonSkipWs cs with
    | 'n' :: 'u' :: 'l' :: 'l' :: rest => some (Json.null, rest)
    | 't' :: 'r' :: 'u' :: 'e' :: rest => some (Json.bool true, rest)
    | 'f' :: 'a' :: 'l' :: 's' :: 'e' :: rest => some (Json.bool false, rest)
    | '"' :: rest =>
      match jsonParseString [] rest with
      | some (s, rest2) => some (Json.str s, rest2)
      | none => none
    | '[' :: rest => jsonParseStep f JPMode.arrStart rest
    | '{' :: rest => jsonParseStep f JPMode.objStart rest
    | c :: rest =>
      if c = '-' ∨ c.isDigit then
        match jsonParseNum (c :: rest) with
        | some (lit, rest2) => some (Json.num lit, rest2)
        | none => none
      else none
    | [] => none
  | Nat.succ f, JPMode.arrStart, cs =>
    match jsonSkipWs cs with
    | ']' :: rest => some (Json.arr [], rest)
    | other =>
      match jsonParseStep f JPMode.val other with
      | some (v, rest2) => jsonParseStep f (JPMode.arrCont [v]) rest2
      | none => none
  | Nat.succ f, JPMode.arrCont acc, cs =>
    match jsonSkipWs cs with
    | ']' :: rest => some (Json.arr acc.reverse, rest)
    | ',' :: rest =>
      match jsonParseStep f JPMode.val rest with
      | some (v, rest2) => jsonParseStep f (JPMode.arrCont (v :: acc)) rest2
      | none => none
    | _ => none
  | Nat.succ f, JPMode.objStart, cs =>
    match jsonSkipWs cs with
    | '}' :: rest => some (Json.obj [], rest)
    | other => jsonParseStep f (JPMode.objMember []) other
  | Nat.succ f, JPMode.objMember acc, cs =>
    match jsonSkipWs cs with
    | '"' :: rest =>
      match jsonParseString [] rest with
      | some (k, rest2) =>
        match jsonSkipWs rest2 with
        | ':' :: rest3 =>
          match jsonParseStep f JPMode.val rest3 with
          | some (v, rest4) => jsonParseStep f (JPMode.objCont ((k, v) :: acc)) rest4
          | none => none
        | _ => none
      | none => none
    | _ => none
  | Nat.succ f, JPMode.objCont acc, cs =>
    match jsonSkipWs cs with
    | '}' :: rest => some (Json.obj acc.reverse, rest)
    | ',' :: rest => jsonParseStep f (JPMode.objMember acc) rest
    | _ => none

/-- Model of `JSON.parse`: parse one value and require that only
whitespace remains. -/
def Json.parse (s : String) : Option Json :=
  match jsonParseStep (3 * s.data.length + 8) JPMode.val s.data with
  | some (v, rest) =>
    match jsonSkipWs rest with
    | [] => some v
    | _ => none
  | none => none

/-- Hexadecimal digit for JSON string escaping. -/
def hexDigit (n : Nat) : Char :=
  if n < 10 then Char.ofNat ('0'.toNat + n) else Char.ofNat ('a'.toNat + n - 10)

/-- Escaping of one character inside a JSON string literal, as
`JSON.stringify` does. -/
def escapeJsonChar (c : Char) : List Char :=
  if c = '"' then ['\\', '"']
  else if c = '\\' then ['\\', '\\']
  else if c = '\n' then ['\\', 'n']
  else if c = '\r' then ['\\', 'r']
  else if c = '\t' then ['\\', 't']
  else if c = Char.ofNat 8 then ['\\', 'b']
  else if c = Char.ofNat 12 then ['\\', 'f']
  else if c.toNat < 32 then
    ['\\', 'u', '0', '0', hexDigit (c.toNat / 16), hexDigit (c.toNat % 16)]
  else [c]

/-- Escaped body of a JSON string literal. -/
def escapeJsonString (s : String) : String :=
  String.mk (s.data.map escapeJsonChar).flatten

/-- Fuel-indexed JSON renderer (model of `JSON.stringify`).  Callers pass
fuel at least the nesting depth of the value (the server only ever
stringifies depth-2 values), so the `0` case is unreachable in use.  The
fuel is explicit because `sizeOf` on this nested inductive has no
executable code. -/
def renderJsonF : Nat → Json → String
  | 0, _ => ""
  | Nat.succ f, j =>
    match j with
    | Json.null => "null"
    | Json.bool true => "true"
    | Json.bool false => "false"
    | Json.num lit => lit
    | Json.str s => "\"" ++ escapeJsonString s ++ "\""
    | Json.arr xs =>
      "[" ++ String.intercalate "," (xs.map (fun x => renderJsonF f x)) ++ "]"
    | Json.obj fs =>
      "\x7b" ++
        String.intercalate ","
          (fs.map (fun kv => "\"" ++ escapeJsonString kv.1 ++ "\":" ++ renderJsonF f kv.2)) ++
        "\x7d"

/-- Fuel-indexed model of JavaScript string coercion (`String(v)`),
applied when a non-string extracted value is concatenated onto text.
Callers pass fuel at least the nesting depth of the value; a parsed
value's depth is bounded by the length of the text it was parsed from. -/
def jsToStringF : Nat → Json → String
  | 0, _ => ""
  | Nat.succ f, j =>
    match j with
    | Json.str s => s
    | Json.num lit => lit
    | Json.bool true => "true"
    | Json.bool false => "false"
    | Json.null => "null"
    | Json.arr xs =>
      String.intercalate ","
        (xs.map (fun x => match x with | Json.null => "" | y => jsToStringF f y))
    | Json.obj _ => "[object Object]"

/-- Property access `j[key]` on a parsed JSON value: defined for objects
(with the last duplicate key winning, as in `JSON.parse`), `none`
(JavaScript `undefined`) otherwise. -/
def jsGet (j : Json) (key : String) : Option Json :=
  match j with
  | Json.obj fields => fields.foldl (fun acc kv => if kv.1 = key then some kv.2 else acc) none
  | _ => none

/-- Index access `j[i]` on a parsed JSON value, for arrays. -/
def jsIndex (j : Json) (i : Nat) : Option Json :=
  match j with
  | Json.arr xs => xs.get? i
  | _ => none

/-- Collapse a JavaScript `null` to `undefined`: the values the `??` and
`?.` operators treat as missing. -/
def nullish : Option Json → Option Json
  | some Json.null => none
  | o => o

/-- Discriminator for the JSON `null` value. -/
def Json.isNull : Json → Bool
  | Json.null => true
  | _ => false

/-- The extraction expression of `parseSSELine` in `src/unnamed/part_000`:
`obj.delta?.content ?? obj.delta ?? obj.content ?? obj.answer ?? ""`.
When the parsed value is a top-level `null`, the very first access
`obj.delta` throws a TypeError in JavaScript (the optional chaining
guards only the inner `.content`), so the result is `none` — the throw,
to be caught by the caller.  For every other value the accesses cannot
throw and the nullish-coalescing chain yields `some` of the selected
value (`Json.str ""` when all four alternatives are nullish). -/
def extractChain (obj : Json) : Option Json :=
  if obj.isNull then none
  else some
    (match nullish ((nullish (jsGet obj "delta")).bind (fun d => jsGet d "content")) with
     | some v => v
     | none =>
       match nullish (jsGet obj "delta") with
       | some v => v
       | none =>
         match nullish (jsGet obj "content") with
         | some v => v
         | none =>
           match nullish (jsGet obj "answer") with
           | some v => v
           | none => Json.str "")

/-- The answer extraction of `src/server/api/chat.post.ts`:
`data?.choices?.[0]?.message?.content ?? ""`.  `coerceFuel` bounds the
depth of the extracted value for string coercion; callers pass the
length of the text `data` was parsed from. -/
def extractAnswer (coerceFuel : Nat) (data : Json) : String :=
  match
    nullish
      ((nullish
          ((nullish
              ((nullish (jsGet data "choices")).bind (fun c => jsIndex c 0))).bind
            (fun m => jsGet m "message"))).bind
        (fun m => jsGet m "content"))
  with
  | some v => jsToStringF coerceFuel v
  | none => ""

/-- Message roles of the chat data model. -/
inductive Role where
  | system : Role
  | user : Role
  | assistant : Role
deriving DecidableEq, Repr

/-- One chat message: a role and growing text content. -/
structure ChatMessage where
  role : Role
  content : String
deriving DecidableEq, Repr

/-- The reactive state owned by one `useChat` session: the message list,
the pending flag, the error field and the current abort controller
(modelled as an optional numeric handle). -/
structure ChatState where
  messages : List ChatMessage
  pending : Bool
  error : Option String
  abortCtrl : Option Nat
deriving DecidableEq, Repr

/-- A fresh session with no system prompt. -/
def initChatState : ChatState :=
  { messages := [], pending := false, error := none, abortCtrl := none }

/-- Model of JavaScript `Array.prototype.slice(-n)`: the last `n`
elements — except that `slice(-0)` is `slice(0)`, the whole array. -/
def jsSliceNeg {α : Type} (n : Nat) (l : List α) : List α :=
  if n = 0 then l else l.drop (l.length - n)

/-- The `buildHistory` of `src/unnamed/part_000`: drop system messages,
then `slice(-maxHistory)` with `opts.maxHistory ?? 10`. -/
def buildHistory (messages : List ChatMessage) (maxHistory : Option Nat) : List ChatMessage :=
  let hist := messages.filter (fun m => !(m.role == Role.system))
  jsSliceNeg (maxHistory.getD 10) hist

/-- Count of non-overlapping occurrences of three consecutive backticks,
scanning left to right: the model of `(out.match(/```/g) || []).length`. -/
def countFences : List Char → Nat
  | c1 :: c2 :: c3 :: rest =>
    if c1 = backtick ∧ c2 = backtick ∧ c3 = backtick then countFences rest + 1
    else countFences (c2 :: c3 :: rest)
  | _ => 0

/-- The `postProcessMarkdown` of `src/unnamed/part_000`: close an odd
number of code fences, then ensure a trailing newline. -/
def postProcessMarkdown (s : String) : String :=
  let out := s
  let out := if countFences out.data % 2 ≠ 0 then out ++ "\n```" else out
  let out := if ¬ endsLF out.data = true then out ++ "\n" else out
  out

/-- The `parseSSELine` of `src/unnamed/part_000`.  `none` models the
`null` return (not a `data:` line); `some ""` models the empty result
for blank payloads and the two sentinel spellings; otherwise the payload
is parsed as JSON and the extraction chain applied.  The `catch` branch
returns the literal payload both when parsing fails and when the
extraction itself throws (a payload parsing to top-level `null`). -/
def parseSSELine (line : String) : Option String :=
  let trimmed := jsTrim line
  if ¬ jsStartsWith trimmed "data:" = true then none
  else
    let payload := jsTrim (jsDrop trimmed 5)
    if payload = "" ∨ payload = "[DONE]" ∨ payload = "[done]" then some ""
    else
      match Json.parse payload with
      | some obj =>
        match extractChain obj with
        | some v => some (jsToStringF (payload.data.length + 2) v)
        | none => some payload
      | none => some payload

/-- The `appendToMessage` of `src/unnamed/part_000`: append text to the
message at a fixed index, ignoring invalid indices. -/
def appendToMessage (s : ChatState) (idx : Nat) (chunk : String) : ChatState :=
  match s.messages.get? idx with
  | none => s
  | some m => { s with messages := s.messages.set idx { m with content := m.content ++ chunk } }

/-- The final markdown pass of `send`: replace the content of the
message at `idx` by its post-processed form. -/
def finalizeAt (s : ChatState) (idx : Nat) : ChatState :=
  match s.messages.get? idx with
  | none => s
  | some m => { s with messages := s.messages.set idx { m with content := postProcessMarkdown m.content } }

/-- Scanner for the event separator regex `/\r?\n\r?\n/` used by
`buffered.split(...)` in `src/unnamed/part_000`: `acc` holds the current
segment reversed; at each position the longest separator match is
consumed (the four concrete shapes below, exactly the strings the greedy
regex accepts), otherwise the scan advances one character.  The result
is the full JavaScript `split` parts list, never empty. -/
def splitGo : List Char → List Char → List (List Char)
  | acc, [] => [acc.reverse]
  | acc, '\r' :: '\n' :: '\r' :: '\n' :: rest => acc.reverse :: splitGo [] rest
  | acc, '\r' :: '\n' :: '\n' :: rest => acc.reverse :: splitGo [] rest
  | acc, '\n' :: '\r' :: '\n' :: rest => acc.reverse :: splitGo [] rest
  | acc, '\n' :: '\n' :: rest => acc.reverse :: splitGo [] rest
  | acc, c :: cs => splitGo (c :: acc) cs

/-- JavaScript `buffered.split(/\r?\n\r?\n/)` on strings. -/
def splitEvents (s : String) : List String :=
  (splitGo [] s.data).map (fun l => String.mk l)

/-- The frame-splitting step of the consumer read loop: all complete
events, and the trailing incomplete part that `events.pop() ?? ""`
leaves in `buffered`. -/
def splitFrames (s : String) : List String × String :=
  let parts := splitEvents s
  (parts.dropLast, parts.getLastD "")

/-- Scanner for the line separator regex `/\r?\n/` used by
`evt.split(...)`. -/
def splitLinesGo : List Char → List Char → List (List Char)
  | acc, [] => [acc.reverse]
  | acc, '\r' :: '\n' :: rest => acc.reverse :: splitLinesGo [] rest
  | acc, '\n' :: rest => acc.reverse :: splitLinesGo [] rest
  | acc, c :: cs => splitLinesGo (c :: acc) cs

/-- JavaScript `evt.split(/\r?\n/)` on strings. -/
def splitLines (s : String) : List String :=
  (splitLinesGo [] s.data).map (fun l => String.mk l)

/-- The per-line body of the SSE event loop in `send`: skip `null`
(non-`data:`) lines and empty payloads, append everything else. -/
def applyLine (st : ChatState) (idx : Nat) (line : String) : ChatState :=
  match parseSSELine line with
  | none => st
  | some add => if add = "" then st else appendToMessage st idx add

/-- Process one complete SSE event: split it into lines and apply each. -/
def processEventLines (st : ChatState) (idx : Nat) (evt : String) : ChatState :=
  (splitLines evt).foldl (fun a line => applyLine a idx line) st

/-- The chunk read loop of the streaming `send`: `ct` is the lowered
`Content-Type`; SSE chunks go through the frame splitter with the
remainder carried in `buffered`, other chunks are appended verbatim. -/
def processChunks (ct : String) (idx : Nat) : ChatState → String → List String → ChatState
  | st, _, [] => st
  | st, buffered, chunk :: rest =>
    let buffered2 := buffered ++ chunk
    if strIncludes ct "text/event-stream" then
      let split := splitFrames buffered2
      let st2 := split.1.foldl (fun a evt => processEventLines a idx evt) st
      processChunks ct idx st2 split.2 rest
    else
      processChunks ct idx (appendToMessage st idx chunk) "" rest

/-- The response object the streaming `send` sees from `fetch`:
status and status text, the `Content-Type` header, the body as a list
of already-decoded text chunks (`none` models a missing body), and the
full body text returned by `resp.text()`. -/
structure FetchResponse where
  status : Nat
  statusText : String
  contentType : Option String
  bodyChunks : Option (List String)
  text : String
deriving DecidableEq, Repr

/-- WHATWG `Response.ok`: status in the 2xx range. -/
def respOk (status : Nat) : Bool :=
  decide (200 ≤ status ∧ status < 300)

/-- The error message built by the streaming `send` on a non-ok
response: `API ${status} ${statusText}` plus the server body truncated
to 200 characters when non-empty. -/
def clientErrorMessage (status : Nat) (statusText serverMsg : String) : String :=
  "API " ++ toString status ++ " " ++ statusText ++
    (if serverMsg = "" then "" else " - " ++ jsTake serverMsg 200)

/-- The streaming branch of `send` in `src/unnamed/part_000`, as a state
transition on one session.  `fresh` is the handle of the new
`AbortController`; the request payload (prompt, history window, model
options) goes to the network and is not part of the session state.
The guard, the non-ok error path, the missing-body fallback, the chunk
loop and the final markdown pass follow the source order. -/
def sendStreaming (s : ChatState) (prompt : String) (fresh : Nat) (resp : FetchResponse) : ChatState :=
  if jsTrim prompt = "" ∨ s.pending = true then s
  else
    let s1 : ChatState :=
      { s with error := none, pending := true, abortCtrl := some fresh }
    let s2 : ChatState := { s1 with messages := s1.messages ++ [⟨Role.user, prompt⟩] }
    if ¬ respOk resp.status = true then
      let serverMsg := resp.text
      { s2 with error := some (clientErrorMessage resp.status resp.statusText serverMsg),
                pending := false }
    else
      let s3 : ChatState := { s2 with messages := s2.messages ++ [⟨Role.assistant, ""⟩] }
      let idx := s3.messages.length - 1
      match resp.bodyChunks with
      | none =>
        let fallback := postProcessMarkdown resp.text
        { appendToMessage s3 idx fallback with pending := false }
      | some chunks =>
        let ct := jsToLower (resp.contentType.getD "")
        let s4 := processChunks ct idx s3 "" chunks
        let s5 := finalizeAt s4 idx
        { s5 with pending := false }

/-- The parsed JSON body `send` receives from `$fetch` in non-streaming
mode: optional `answer` and `error` fields. -/
structure ApiResult where
  answer : Option String
  error : Option String
deriving DecidableEq, Repr

/-- The non-streaming branch of `send`: on an `error` field the thrown
message lands in the session error; otherwise the post-processed answer
is pushed as one new assistant message. -/
def sendNonStreaming (s : ChatState) (prompt : String) (fresh : Nat) (resp : ApiResult) : ChatState :=
  if jsTrim prompt = "" ∨ s.pending = true then s
  else
    let s1 : ChatState :=
      { s with error := none, pending := true, abortCtrl := some fresh }
    let s2 : ChatState := { s1 with messages := s1.messages ++ [⟨Role.user, prompt⟩] }
    match resp.error with
    | some e => { s2 with error := some e, pending := false }
    | none =>
      let answer := postProcessMarkdown (resp.answer.getD "")
      { s2 with messages := s2.messages ++ [⟨Role.assistant, answer⟩], pending := false }

/-- The synchronous prefix of `send`, before any network suspension:
the guard `if (!prompt.trim() || pending.value) return`, the error
reset, the pending transition, `abortCtrl?.abort()` (the returned list
holds the handles actually aborted), the fresh controller, the history
snapshot and the user-message push. -/
def sendPrelude (s : ChatState) (prompt : String) (fresh : Nat) (maxHistory : Option Nat) :
    ChatState × List Nat × List ChatMessage :=
  if jsTrim prompt = "" ∨ s.pending = true then (s, [], [])
  else
    let aborted := match s.abortCtrl with | some h => [h] | none => []
    let tail := buildHistory s.messages maxHistory
    ({ s with error := none, pending := true, abortCtrl := some fresh,
              messages := s.messages ++ [⟨Role.user, prompt⟩] },
     aborted, tail)

/-- The upstream-failure reply of `src/server/api/chat.post.ts`
(`if (!upstream.ok)`): status 500 and a JSON body wrapping the
upstream error text. -/
def chatPostErrorReply (upstreamErrText : String) : Nat × Json :=
  (500, Json.obj [("error", Json.str ("OpenAI error: " ++ upstreamErrText))])

/-- The non-streaming success reply of the server route: the extracted
answer, no error.  `upstreamText` is the body text the JSON was parsed
from, used only to bound coercion fuel. -/
def chatPostAnswerReply (upstreamText : String) (data : Json) : ApiResult :=
  { answer := some (extractAnswer (upstreamText.data.length + 2) data), error := none }

/-- The JSON-bridge answer of the streaming branch: parse the full body
and extract like the non-streaming path, falling back to the raw text
when parsing fails. -/
def bridgeAnswer (upstreamText : String) : String :=
  match Json.parse upstreamText with
  | some data => extractAnswer (upstreamText.data.length + 2) data
  | none => upstreamText

/-- The streaming branch of the server route as the ordered list of
writes to the outgoing response, paired with whether `res.end()` ran.
The branches mirror the source: relay when the upstream already speaks
SSE, end on a missing body, JSON-bridge for `application/json`, and
line-wise re-framing for any other stream. -/
def sseWrites (upstreamCT : Option String) (upBody : Option (List String)) (upText : String) :
    List String × Bool :=
  let ct := jsToLower (upstreamCT.getD "")
  let pre := [": ping\n\n"]
  if strIncludes ct "text/event-stream" then
    match upBody with
    | none => (pre, true)
    | some chunks => (pre ++ chunks, true)
  else
    match upBody with
    | none => (pre, true)
    | some chunks =>
      if strIncludes ct "application/json" then
        (pre ++
          ["data: " ++ renderJsonF 4 (Json.obj [("content", Json.str (bridgeAnswer upText))]) ++
             "\n\n",
           "data: [DONE]\n\n"],
         true)
      else
        (pre ++
          (chunks.map (fun c =>
             ((splitLines c).filter (fun ln => !(ln == ""))).map
               (fun ln => "data: " ++ ln ++ "\n\n"))).flatten ++
          ["data: [DONE]\n\n"],
         true)

/-! ### MarkdownFinalizer lemmas -/

theorem countFences_cons_ne (c : Char) (l : List Char) (h : ¬ c = backtick) :
    countFences (c :: l) = countFences l := by
  rcases l with _ | ⟨a, _ | ⟨b, r⟩⟩ <;> simp [countFences, h]

theorem countFences_nl (m : List Char) : countFences ('\n' :: m) = countFences m :=
  countFences_cons_ne _ _ (by decide)

theorem countFences_snd_nl (c : Char) (m : List Char) :
    countFences (c :: '\n' :: m) = countFences m := by
  rcases m with _ | ⟨a, m'⟩
  · simp [countFences]
  · have hn : ¬ (c = backtick ∧ '\n' = backtick ∧ a = backtick) := fun h =>
      absurd h.2.1 (by decide)
    rw [show countFences (c :: '\n' :: a :: m') = countFences ('\n' :: a :: m') from by
      simp [countFences, hn]]
    exact countFences_nl (a :: m')

theorem countFences_append_nl (l m : List Char) :
    countFences (l ++ '\n' :: m) = countFences l + countFences m := by
  induction l using countFences.induct with
  | case1 c1 c2 c3 rest h ih =>
    obtain ⟨h1, h2, h3⟩ := h
    simp only [List.cons_append]
    rw [show countFences (c1 :: c2 :: c3 :: (rest ++ '\n' :: m)) =
          countFences (rest ++ '\n' :: m) + 1 from by simp [countFences, h1, h2, h3]]
    rw [show countFences (c1 :: c2 :: c3 :: rest) = countFences rest + 1 from by
      simp [countFences, h1, h2, h3]]
    rw [ih]
    omega
  | case2 c1 c2 c3 rest h ih =>
    simp only [List.cons_append]
    rw [show countFences (c1 :: c2 :: c3 :: (rest ++ '\n' :: m)) =
          countFences (c2 :: c3 :: (rest ++ '\n' :: m)) from by simp [countFences, h]]
    rw [show countFences (c1 :: c2 :: c3 :: rest) = countFences (c2 :: c3 :: rest) from by
      simp [countFences, h]]
    simpa using ih
  | case3 t ht =>
    rcases t with _ | ⟨a, _ | ⟨b, _ | ⟨c, r⟩⟩⟩
    · simpa [countFences] using countFences_nl m
    · rw [show ([a] ++ '\n' :: m) = a :: '\n' :: m from rfl, countFences_snd_nl]
      simp [countFences]
    · have hn : ¬ (a = backtick ∧ b = backtick ∧ '\n' = backtick) := fun h =>
        absurd h.2.2 (by decide)
      rw [show ([a, b] ++ '\n' :: m) = a :: b :: '\n' :: m from rfl]
      rw [show countFences (a :: b :: '\n' :: m) = countFences (b :: '\n' :: m) from by
        simp [countFences, hn]]
      rw [countFences_snd_nl]
      simp [countFences]
    · exact ((ht a b c r) rfl).elim

theorem endsLF_concat_nl (l : List Char) : endsLF (l ++ ['\n']) = true := by
  simp [endsLF, List.getLast?_concat]

theorem endsLF_append_ne (l m : List Char) (hm : m ≠ []) :
    endsLF (l ++ m) = endsLF m := by
  rcases List.eq_nil_or_concat m with rfl | ⟨t, a, rfl⟩
  · exact absurd rfl hm
  · simp only [List.concat_eq_append, ← List.append_assoc]
    simp [endsLF, List.getLast?_concat]

theorem ppm_even_lf (s : String) (h1 : countFences s.data % 2 = 0)
    (h2 : endsLF s.data = true) : postProcessMarkdown s = s := by
  simp [postProcessMarkdown, h1, h2]

theorem ppm_even_nolf (s : String) (h1 : countFences s.data % 2 = 0)
    (h2 : endsLF s.data = false) : postProcessMarkdown s = s ++ "\n" := by
  simp [postProcessMarkdown, h1, h2]

theorem ppm_odd (s : String) (h1 : countFences s.data % 2 = 1) :
    postProcessMarkdown s = (s ++ "\n```") ++ "\n" := by
  have h1' : countFences s.data % 2 ≠ 0 := by omega
  have hne : endsLF (s ++ "\n```").data = false := by
    rw [String.data_append, endsLF_append_ne _ _ (by decide)]
    decide
  have hne' : ¬ endsLF (s ++ "\n```").data = true := by
    rw [hne]; exact Bool.false_ne_true
  simp only [postProcessMarkdown]
  rw [if_pos h1', if_pos hne']

theorem ppm_count_even (s : String) :
    countFences (postProcessMarkdown s).data % 2 = 0 := by
  rcases Nat.mod_two_eq_zero_or_one (countFences s.data) with h1 | h1
  · cases h2 : endsLF s.data
    · rw [ppm_even_nolf s h1 h2, String.data_append]
      rw [show "\n".data = '\n' :: ([] : List Char) from rfl, countFences_append_nl]
      simpa [countFences] using h1
    · rw [ppm_even_lf s h1 h2]; exact h1
  · rw [ppm_odd s h1, String.data_append, String.data_append]
    have e : "\n```".data ++ "\n".data =
        '\n' :: backtick :: backtick :: backtick :: ['\n'] := by decide
    rw [List.append_assoc, e]
    rw [show ('\n' :: backtick :: backtick :: backtick :: ['\n']) =
          '\n' :: (backtick :: backtick :: backtick :: ['\n']) from rfl]
    rw [countFences_append_nl]
    have h2 : countFences (backtick :: backtick :: backtick :: ['\n']) = 1 := by decide
    omega

theorem ppm_endsLF (s : String) : endsLF (postProcessMarkdown s).data = true := by
  rcases Nat.mod_two_eq_zero_or_one (countFences s.data) with h1 | h1
  · cases h2 : endsLF s.data
    · rw [ppm_even_nolf s h1 h2, String.data_append]
      rw [show "\n".data = ['\n'] from rfl]
      exact endsLF_concat_nl _
    · rw [ppm_even_lf s h1 h2]; exact h2
  · rw [ppm_odd s h1, String.data_append]
    rw [show "\n".data = ['\n'] from rfl]
    exact endsLF_concat_nl _

/-- C4: the finalize transform `postProcessMarkdown` is idempotent —
`finalize (finalize x) = finalize x` for every text `x` — and a text
with an even fence count and a trailing newline is returned unchanged
by a repeat call. -/
theorem c4_postProcessMarkdown_idempotent :
    (∀ x : String, postProcessMarkdown (postProcessMarkdown x) = postProcessMarkdown x) ∧
    (∀ x : String, countFences x.data % 2 = 0 → endsLF x.data = true →
      postProcessMarkdown x = x) :=
  ⟨fun x => ppm_even_lf (postProcessMarkdown x) (ppm_count_even x) (ppm_endsLF x),
   fun x h1 h2 => ppm_even_lf x h1 h2⟩

/-- Witness for C4 at concrete inputs: an unterminated fence is closed
once and stable afterwards, and an already-finalized text is unchanged. -/
theorem c4_postProcessMarkdown_idempotent_witness :
    postProcessMarkdown (postProcessMarkdown "a ``` b") = postProcessMarkdown "a ``` b" ∧
    postProcessMarkdown "ok\n" = "ok\n" :=
  ⟨c4_postProcessMarkdown_idempotent.1 "a ``` b",
   c4_postProcessMarkdown_idempotent.2 "ok\n" (by decide) (by decide)⟩

/-! ### FrameCodec payload-extraction lemmas -/

theorem jsToStringF_str (f : Nat) (s : String) :
    jsToStringF (f + 2) (Json.str s) = s := rfl

theorem isNull_false_of_get_some (obj : Json) (k : String) (v : Json)
    (h : nullish (jsGet obj k) = some v) : obj.isNull = false := by
  cases obj
  case null => simp [jsGet, nullish] at h
  all_goals rfl

theorem isNull_false_of_chain_some (obj : Json) (v : Json)
    (h : nullish ((nullish (jsGet obj "delta")).bind (fun d => jsGet d "content")) = some v) :
    obj.isNull = false := by
  cases obj
  case null => simp [jsGet, nullish] at h
  all_goals rfl

/-- Extraction throws on a payload that parses to a top-level `null`:
the `catch` returns the literal payload, so `data: null` contributes
the text `null`, not the empty result. -/
theorem parseSSELine_null_literal : parseSSELine "data: null" = some "null" := rfl

/-- C2 counterexample: the sentinel comparison is not case-insensitive.
On the line `data: [Done]` the code returns the raw text `[Done]` as a
literal payload (JSON parsing of `[Done]` fails), not the empty result
the claim requires for every casing of the sentinel. -/
theorem c2_counterexample :
    parseSSELine "data: [Done]" = some "[Done]" ∧ parseSSELine "data: [Done]" ≠ some "" := by
  constructor
  · rfl
  · intro h
    simp only [parseSSELine] at h
    revert h
    decide

/-- C2 (amended): for a trimmed `data:` line, the result is empty
exactly when the remaining payload is empty or equals one of the two
spellings `[DONE]` and `[done]` the code compares against; other
casings are ordinary payload text. -/
theorem c2_sentinel_exact (line : String)
    (hd : jsStartsWith (jsTrim line) "data:" = true)
    (hp : jsTrim (jsDrop (jsTrim line) 5) = "" ∨
          jsTrim (jsDrop (jsTrim line) 5) = "[DONE]" ∨
          jsTrim (jsDrop (jsTrim line) 5) = "[done]") :
    parseSSELine line = some "" := by
  simp only [parseSSELine, hd]
  rcases hp with h | h | h <;> simp [h]

/-- Witness for C2 at the two concrete sentinel spellings. -/
theorem c2_sentinel_exact_witness :
    parseSSELine "data: [DONE]" = some "" ∧ parseSSELine "data: [done]" = some "" :=
  ⟨c2_sentinel_exact "data: [DONE]" (by decide) (by decide),
   c2_sentinel_exact "data: [done]" (by decide) (by decide)⟩

/-- C5: for a `data:` line whose remaining payload parses as structured
data, extraction follows the priority order nested delta-content field,
then delta as plain text, then content, then answer (each case stated
for a text-valued field, with the earlier alternatives nullish); when
parsing fails, the raw payload is returned literally. -/
theorem c5_extract_priority (line : String)
    (hd : jsStartsWith (jsTrim line) "data:" = true)
    (h1 : jsTrim (jsDrop (jsTrim line) 5) ≠ "")
    (h2 : jsTrim (jsDrop (jsTrim line) 5) ≠ "[DONE]")
    (h3 : jsTrim (jsDrop (jsTrim line) 5) ≠ "[done]") :
    (∀ obj s, Json.parse (jsTrim (jsDrop (jsTrim line) 5)) = some obj →
       nullish ((nullish (jsGet obj "delta")).bind (fun d => jsGet d "content")) =
         some (Json.str s) →
       parseSSELine line = some s) ∧
    (∀ obj s, Json.parse (jsTrim (jsDrop (jsTrim line) 5)) = some obj →
       nullish ((nullish (jsGet obj "delta")).bind (fun d => jsGet d "content")) = none →
       nullish (jsGet obj "delta") = some (Json.str s) →
       parseSSELine line = some s) ∧
    (∀ obj s, Json.parse (jsTrim (jsDrop (jsTrim line) 5)) = some obj →
       nullish ((nullish (jsGet obj "delta")).bind (fun d => jsGet d "content")) = none →
       nullish (jsGet obj "delta") = none →
       nullish (jsGet obj "content") = some (Json.str s) →
       parseSSELine line = some s) ∧
    (∀ obj s, Json.parse (jsTrim (jsDrop (jsTrim line) 5)) = some obj →
       nullish ((nullish (jsGet obj "delta")).bind (fun d => jsGet d "content")) = none →
       nullish (jsGet obj "delta") = none →
       nullish (jsGet obj "content") = none →
       nullish (jsGet obj "answer") = some (Json.str s) →
       parseSSELine line = some s) ∧
    (Json.parse (jsTrim (jsDrop (jsTrim line) 5)) = none →
       parseSSELine line = some (jsTrim (jsDrop (jsTrim line) 5))) := by
  refine ⟨?_, ?_, ?_, ?_, ?_⟩
  · intro obj s hparse hc
    have hnull : obj.isNull = false := isNull_false_of_chain_some obj _ hc
    have hchain : extractChain obj = some (Json.str s) := by
      unfold extractChain
      rw [hc]
      simp [hnull]
    simp only [parseSSELine, hd, h1, h2, h3, hparse]
    simp [hchain, jsToStringF_str]
  · intro obj s hparse hc hdlt
    have hnull : obj.isNull = false := isNull_false_of_get_some obj "delta" _ hdlt
    have hchain : extractChain obj = some (Json.str s) := by
      unfold extractChain
      rw [hc, hdlt]
      simp [hnull]
    simp only [parseSSELine, hd, h1, h2, h3, hparse]
    simp [hchain, jsToStringF_str]
  · intro obj s hparse hc hdlt hcont
    have hnull : obj.isNull = false := isNull_false_of_get_some obj "content" _ hcont
    have hchain : extractChain obj = some (Json.str s) := by
      unfold extractChain
      rw [hc, hdlt, hcont]
      simp [hnull]
    simp only [parseSSELine, hd, h1, h2, h3, hparse]
    simp [hchain, jsToStringF_str]
  · intro obj s hparse hc hdlt hcont hans
    have hnull : obj.isNull = false := isNull_false_of_get_some obj "answer" _ hans
    have hchain : extractChain obj = some (Json.str s) := by
      unfold extractChain
      rw [hc, hdlt, hcont, hans]
      simp [hnull]
    simp only [parseSSELine, hd, h1, h2, h3, hparse]
    simp [hchain, jsToStringF_str]
  · intro hparse
    simp [parseSSELine, hd, h1, h2, h3, hparse]

/-- Witness for C5: a payload carrying both a nested delta-content
field and a content field yields the delta-content text, and a payload
that is not structured data is returned literally. -/
theorem c5_extract_priority_witness :
    parseSSELine "data: \x7b\"delta\":\x7b\"content\":\"Hi\"\x7d,\"content\":\"X\"\x7d" =
      some "Hi" ∧
    parseSSELine "data: plain text" = some "plain text" :=
  ⟨(c5_extract_priority "data: \x7b\"delta\":\x7b\"content\":\"Hi\"\x7d,\"content\":\"X\"\x7d"
      (by decide) (by decide) (by decide) (by decide)).1
      (Json.obj [("delta", Json.obj [("content", Json.str "Hi")]), ("content", Json.str "X")])
      "Hi" (by rfl) (by rfl),
   (c5_extract_priority "data: plain text"
      (by decide) (by decide) (by decide) (by decide)).2.2.2.2 (by rfl)⟩

/-- C10: a payload that parses as a structured value (not the JSON
`null`, on which the extraction expression throws and the catch returns
the literal payload instead) carrying none of the four recognized
fields (all nullish) extracts the empty result, and the consumer loop
body leaves the session state unchanged on such a line — the raw
payload is not appended. -/
theorem c10_unrecognized_fields_empty (line : String)
    (hd : jsStartsWith (jsTrim line) "data:" = true)
    (h1 : jsTrim (jsDrop (jsTrim line) 5) ≠ "")
    (h2 : jsTrim (jsDrop (jsTrim line) 5) ≠ "[DONE]")
    (h3 : jsTrim (jsDrop (jsTrim line) 5) ≠ "[done]")
    (obj : Json) (hparse : Json.parse (jsTrim (jsDrop (jsTrim line) 5)) = some obj)
    (hobj : obj.isNull = false)
    (hdlt : nullish (jsGet obj "delta") = none)
    (hcont : nullish (jsGet obj "content") = none)
    (hans : nullish (jsGet obj "answer") = none) :
    parseSSELine line = some "" ∧ ∀ st idx, applyLine st idx line = st := by
  have hps : parseSSELine line = some "" := by
    simp only [parseSSELine, hd, h1, h2, h3, hparse]
    simp [extractChain, hobj, hdlt, hcont, hans]
    rfl
  refine ⟨hps, fun st idx => ?_⟩
  simp [applyLine, hps]

/-- Witness for C10 at a concrete structured payload with only an
unrecognized field. -/
theorem c10_unrecognized_fields_empty_witness :
    parseSSELine "data: \x7b\"foo\":\"bar\"\x7d" = some "" ∧
    applyLine initChatState 0 "data: \x7b\"foo\":\"bar\"\x7d" = initChatState :=
  ⟨(c10_unrecognized_fields_empty "data: \x7b\"foo\":\"bar\"\x7d"
      (by decide) (by decide) (by decide) (by decide)
      (Json.obj [("foo", Json.str "bar")]) (by rfl) (by rfl) (by rfl) (by rfl) (by rfl)).1,
   (c10_unrecognized_fields_empty "data: \x7b\"foo\":\"bar\"\x7d"
      (by decide) (by decide) (by decide) (by decide)
      (Json.obj [("foo", Json.str "bar")]) (by rfl) (by rfl) (by rfl) (by rfl) (by rfl)).2
     initChatState 0⟩

/-! ### RequestLifecycle and history-window lemmas -/

/-- C7 counterexample: with configured maximum 0, `slice(-0)` is
`slice(0)` and `buildHistory` returns the whole non-system list, not
the last `min(0, count) = 0` messages the claim requires. -/
theorem c7_counterexample :
    buildHistory [⟨Role.user, "a"⟩] (some 0) = [⟨Role.user, "a"⟩] ∧
    min 0 ([(⟨Role.user, "a"⟩ : ChatMessage)].filter
      (fun m => !(m.role == Role.system))).length = 0 := by
  constructor
  · rfl
  · decide

/-- C7 (amended): for every configured maximum `n ≥ 1` the history
window is exactly the last `min(n, count)` non-system messages, a
suffix of the non-system list in original order, and never contains a
system message; an absent maximum defaults to 10.  (For `n = 0` the
code returns the entire non-system list instead.) -/
theorem c7_history_window :
    (∀ (msgs : List ChatMessage) (n : Nat), 0 < n →
      (buildHistory msgs (some n)).length =
        min n (msgs.filter (fun m => !(m.role == Role.system))).length ∧
      buildHistory msgs (some n) <:+ msgs.filter (fun m => !(m.role == Role.system)) ∧
      ∀ m ∈ buildHistory msgs (some n), m.role ≠ Role.system) ∧
    (∀ msgs : List ChatMessage, buildHistory msgs none = buildHistory msgs (some 10)) := by
  constructor
  · intro msgs n hn
    have hne : n ≠ 0 := Nat.pos_iff_ne_zero.mp hn
    refine ⟨?_, ?_, ?_⟩
    · simp [buildHistory, jsSliceNeg, hne]
      omega
    · simp only [buildHistory, jsSliceNeg, hne, if_false, Option.getD_some]
      exact List.drop_suffix _ _
    · intro m hm
      have hmem : m ∈ msgs.filter (fun m => !(m.role == Role.system)) := by
        have hsuf : buildHistory msgs (some n) <:+
            msgs.filter (fun m => !(m.role == Role.system)) := by
          simp only [buildHistory, jsSliceNeg, hne, if_false, Option.getD_some]
          exact List.drop_suffix _ _
        exact hsuf.subset hm
      have := List.of_mem_filter hmem
      simpa using this
  · intro msgs
    rfl

/-- Witness for C7 at a concrete list and maximum. -/
theorem c7_history_window_witness :
    (buildHistory [⟨Role.system, "s"⟩, ⟨Role.user, "a"⟩, ⟨Role.user, "b"⟩] (some 1)).length =
      min 1 ([⟨Role.system, "s"⟩, ⟨Role.user, "a"⟩, (⟨Role.user, "b"⟩ : ChatMessage)].filter
        (fun m => !(m.role == Role.system))).length :=
  (c7_history_window.1 [⟨Role.system, "s"⟩, ⟨Role.user, "a"⟩, ⟨Role.user, "b"⟩] 1
    (by decide)).1

/-- C1 counterexample: calling `send` again while a request is Pending
returns without effect — nothing is aborted, no user message is
appended, the state is unchanged — contrary to the claimed supersede
(cancel-and-restart) behaviour. -/
theorem c1_counterexample :
    sendPrelude
      { messages := [⟨Role.user, "first"⟩, ⟨Role.assistant, "partial"⟩],
        pending := true, error := none, abortCtrl := some 7 } "second" 8 none =
      ({ messages := [⟨Role.user, "first"⟩, ⟨Role.assistant, "partial"⟩],
         pending := true, error := none, abortCtrl := some 7 }, [], []) := by
  decide

/-- C1 (amended): re-entry while Pending is a no-op — the guard
`if (!prompt.trim() || pending.value) return` fires before anything
observable.  The `abortCtrl?.abort()` step runs only when a send is
accepted (no request pending, non-blank prompt): then the previous
controller handle (of an already finished request) is aborted and
replaced by the fresh one, the error cleared, the user message appended
and the session enters Pending. -/
theorem c1_send_reentry :
    (∀ (s : ChatState) (prompt : String) (fresh : Nat) (mh : Option Nat),
       s.pending = true → sendPrelude s prompt fresh mh = (s, [], [])) ∧
    (∀ (s : ChatState) (prompt : String) (fresh : Nat) (mh : Option Nat),
       s.pending = false → jsTrim prompt ≠ "" →
       sendPrelude s prompt fresh mh =
         ({ messages := s.messages ++ [⟨Role.user, prompt⟩], pending := true,
            error := none, abortCtrl := some fresh },
          s.abortCtrl.toList, buildHistory s.messages mh)) := by
  constructor
  · intro s prompt fresh mh hp
    simp [sendPrelude, hp]
  · intro s prompt fresh mh hp hprompt
    simp only [sendPrelude, hp, hprompt]
    cases s.abortCtrl <;> simp

/-- Witness for C1: the guard at a Pending session, and an accepted send
aborting the stale handle 7 at an idle session. -/
theorem c1_send_reentry_witness :
    sendPrelude { messages := [], pending := true, error := none, abortCtrl := some 7 }
      "x" 8 none =
      ({ messages := [], pending := true, error := none, abortCtrl := some 7 }, [], []) ∧
    sendPrelude { messages := [], pending := false, error := none, abortCtrl := some 7 }
      "hello" 8 none =
      ({ messages := [⟨Role.user, "hello"⟩], pending := true, error := none,
         abortCtrl := some 8 }, [7], []) :=
  ⟨c1_send_reentry.1 ⟨[], true, none, some 7⟩ "x" 8 none rfl,
   (c1_send_reentry.2 ⟨[], false, none, some 7⟩ "hello" 8 none rfl (by decide)).trans
     (by decide)⟩

/-! ### Non-streaming scenario and error surfacing -/

/-- C8: with streaming disabled and backend body
`{"choices":[{"message":{"content":"hi there"}}]}`, `send` appends the
user prompt and exactly one new assistant message whose content is
`"hi there\n"`; no error is recorded and pending clears. -/
theorem c8_nonstreaming_scenario (s : ChatState) (prompt : String) (fresh : Nat)
    (hp : s.pending = false) (hne : jsTrim prompt ≠ "")
    (data : Json)
    (hparse :
      Json.parse "\x7b\"choices\":[\x7b\"message\":\x7b\"content\":\"hi there\"\x7d\x7d]\x7d" =
        some data) :
    (sendNonStreaming s prompt fresh
       (chatPostAnswerReply
         "\x7b\"choices\":[\x7b\"message\":\x7b\"content\":\"hi there\"\x7d\x7d]\x7d"
         data)).messages =
      s.messages ++ [⟨Role.user, prompt⟩, ⟨Role.assistant, "hi there\n"⟩] ∧
    (sendNonStreaming s prompt fresh
       (chatPostAnswerReply
         "\x7b\"choices\":[\x7b\"message\":\x7b\"content\":\"hi there\"\x7d\x7d]\x7d"
         data)).error = none ∧
    (sendNonStreaming s prompt fresh
       (chatPostAnswerReply
         "\x7b\"choices\":[\x7b\"message\":\x7b\"content\":\"hi there\"\x7d\x7d]\x7d"
         data)).pending = false := by
  have h0 :
      Json.parse "\x7b\"choices\":[\x7b\"message\":\x7b\"content\":\"hi there\"\x7d\x7d]\x7d" =
        some (Json.obj [("choices",
          Json.arr [Json.obj [("message", Json.obj [("content", Json.str "hi there")])]])]) := by
    rfl
  have hdata : data = Json.obj [("choices",
      Json.arr [Json.obj [("message", Json.obj [("content", Json.str "hi there")])]])] :=
    (Option.some.inj (h0.symm.trans hparse)).symm
  subst hdata
  have hreply :
      chatPostAnswerReply
        "\x7b\"choices\":[\x7b\"message\":\x7b\"content\":\"hi there\"\x7d\x7d]\x7d"
        (Json.obj [("choices",
          Json.arr [Json.obj [("message", Json.obj [("content", Json.str "hi there")])]])]) =
      { answer := some "hi there", error := none } := by
    rfl
  rw [hreply]
  have hppm : postProcessMarkdown "hi there" = "hi there\n" := by rfl
  simp [sendNonStreaming, hp, hne, hppm]

/-- Witness for C8 from an empty idle session and prompt `"hello"`. -/
theorem c8_nonstreaming_scenario_witness :
    (sendNonStreaming initChatState "hello" 1
       (chatPostAnswerReply
         "\x7b\"choices\":[\x7b\"message\":\x7b\"content\":\"hi there\"\x7d\x7d]\x7d"
         (Json.obj [("choices",
           Json.arr [Json.obj [("message", Json.obj [("content", Json.str "hi there")])]])]))).messages =
      [⟨Role.user, "hello"⟩, ⟨Role.assistant, "hi there\n"⟩] :=
  ((c8_nonstreaming_scenario initChatState "hello" 1 rfl (by decide) _ (by rfl)).1).trans
    (by decide)

theorem clientErrorMessage_contains_500 (stText tail : String) :
    "500".data <:+: (clientErrorMessage 500 stText tail).data :=
  ⟨"API ".data,
   (" " ++ stText ++ (if tail = "" then "" else " - " ++ jsTake tail 200)).data, by
    unfold clientErrorMessage
    simp only [String.data_append]
    rfl⟩

/-- C3 counterexample: the claim requires the surfaced error to contain
the backend's status for every non-success status, but the adapter maps
every upstream failure to its own status 500, so for a backend status
of 429 (a non-ok status: `respOk 429 = false`) with body
`"rate limited"` the session error contains no `429`. -/
theorem c3_counterexample :
    respOk 429 = false ∧
    (sendStreaming initChatState "hi" 1
       { status := (chatPostErrorReply "rate limited").1,
         statusText := "Internal Server Error",
         contentType := some "application/json", bodyChunks := none,
         text := renderJsonF 4 (chatPostErrorReply "rate limited").2 }).error =
      some "API 500 Internal Server Error - \x7b\"error\":\"OpenAI error: rate limited\"\x7d" ∧
    seqContains
      "API 500 Internal Server Error - \x7b\"error\":\"OpenAI error: rate limited\"\x7d".data
      "429".data = false := by
  refine ⟨by decide, by decide, by decide⟩

/-- C3 (amended): on any upstream failure the server replies with its
own status 500 and the JSON wrapper `{"error":"OpenAI error: <body>"}`;
the streaming client records `API 500 <statusText> - <server body
truncated to 200 characters>` in the session error, appends only the
user's prompt to the message list, and clears pending; the message
always contains `500`. -/
theorem c3_upstream_error_surfaced (s : ChatState) (prompt : String) (fresh : Nat)
    (stText bBody : String) (hp : s.pending = false) (hne : jsTrim prompt ≠ "") :
    (sendStreaming s prompt fresh
       { status := (chatPostErrorReply bBody).1, statusText := stText,
         contentType := some "application/json", bodyChunks := none,
         text := renderJsonF 4 (chatPostErrorReply bBody).2 }).messages =
      s.messages ++ [⟨Role.user, prompt⟩] ∧
    (sendStreaming s prompt fresh
       { status := (chatPostErrorReply bBody).1, statusText := stText,
         contentType := some "application/json", bodyChunks := none,
         text := renderJsonF 4 (chatPostErrorReply bBody).2 }).error =
      some (clientErrorMessage 500 stText (renderJsonF 4 (chatPostErrorReply bBody).2)) ∧
    (sendStreaming s prompt fresh
       { status := (chatPostErrorReply bBody).1, statusText := stText,
         contentType := some "application/json", bodyChunks := none,
         text := renderJsonF 4 (chatPostErrorReply bBody).2 }).pending = false ∧
    "500".data <:+:
      (clientErrorMessage 500 stText (renderJsonF 4 (chatPostErrorReply bBody).2)).data := by
  have hok : respOk 500 = false := by decide
  refine ⟨?_, ?_, ?_, clientErrorMessage_contains_500 _ _⟩ <;>
    simp [sendStreaming, hp, hne, hok, chatPostErrorReply]

/-- Witness for C3 at the spec scenario: backend body "quota exceeded";
the session error contains both `500` and the body text. -/
theorem c3_upstream_error_surfaced_witness :
    (sendStreaming initChatState "hello" 1
       { status := (chatPostErrorReply "quota exceeded").1,
         statusText := "Internal Server Error",
         contentType := some "application/json", bodyChunks := none,
         text := renderJsonF 4 (chatPostErrorReply "quota exceeded").2 }).error =
      some "API 500 Internal Server Error - \x7b\"error\":\"OpenAI error: quota exceeded\"\x7d" ∧
    seqContains
      "API 500 Internal Server Error - \x7b\"error\":\"OpenAI error: quota exceeded\"\x7d".data
      "quota exceeded".data = true ∧
    seqContains
      "API 500 Internal Server Error - \x7b\"error\":\"OpenAI error: quota exceeded\"\x7d".data
      "500".data = true :=
  ⟨((c3_upstream_error_surfaced initChatState "hello" 1 "Internal Server Error"
      "quota exceeded" rfl (by decide)).2.1).trans (by decide),
   by decide, by decide⟩

/-- C9: the adapter's streaming branch always writes the no-op
keep-alive frame `: ping` first (in every shape case, before the shape
of the upstream body matters) and always ends the stream; and on the
JSON-bridge path (upstream declared `application/json`, not an event
stream, body present) the writes are exactly the keep-alive frame, one
data frame carrying the extracted answer, and one terminal sentinel. -/
theorem c9_adapter_keepalive_and_bridge :
    (∀ (ct : Option String) (body : Option (List String)) (text : String),
       (sseWrites ct body text).1.head? = some ": ping\n\n" ∧
       (sseWrites ct body text).2 = true) ∧
    (∀ (ct : Option String) (chunks : List String) (text : String),
       strIncludes (jsToLower (ct.getD "")) "text/event-stream" = false →
       strIncludes (jsToLower (ct.getD "")) "application/json" = true →
       sseWrites ct (some chunks) text =
         ([": ping\n\n",
           "data: " ++
             renderJsonF 4 (Json.obj [("content", Json.str (bridgeAnswer text))]) ++ "\n\n",
           "data: [DONE]\n\n"], true)) := by
  constructor
  · intro ct body text
    unfold sseWrites
    rcases body with _ | chunks
    · by_cases h1 : strIncludes (jsToLower (ct.getD "")) "text/event-stream" = true <;>
        simp [h1]
    · by_cases h1 : strIncludes (jsToLower (ct.getD "")) "text/event-stream" = true
      · simp [h1]
      · by_cases h2 : strIncludes (jsToLower (ct.getD "")) "application/json" = true <;>
          simp [h1, h2]
  · intro ct chunks text h1 h2
    unfold sseWrites
    simp [h1, h2]

/-- Witness for C9 on the JSON-bridge path with the sample upstream
document: one ping, one synthesized `content` frame, one sentinel. -/
theorem c9_adapter_keepalive_and_bridge_witness :
    sseWrites (some "application/json") (some ["unused"])
      "\x7b\"choices\":[\x7b\"message\":\x7b\"content\":\"hi there\"\x7d\x7d]\x7d" =
      ([": ping\n\n", "data: \x7b\"content\":\"hi there\"\x7d\n\n", "data: [DONE]\n\n"],
       true) :=
  (c9_adapter_keepalive_and_bridge.2 (some "application/json") ["unused"]
    "\x7b\"choices\":[\x7b\"message\":\x7b\"content\":\"hi there\"\x7d\x7d]\x7d"
    (by decide) (by decide)).trans (by decide)

/-! ### Chunk-boundary invariance of frame splitting -/

/-- Leftmost-separator decomposition of a buffer: `some (pre, rest)`
when a `/\r?\n\r?\n/` separator occurs, with `pre` the text before the
first separator and `rest` the text after it; `none` when no separator
occurs.  Proof-side characterization of `splitGo`. -/
def firstMatch : List Char → Option (List Char × List Char)
  | '\r' :: '\n' :: '\r' :: '\n' :: rest => some ([], rest)
  | '\r' :: '\n' :: '\n' :: rest => some ([], rest)
  | '\n' :: '\r' :: '\n' :: rest => some ([], rest)
  | '\n' :: '\n' :: rest => some ([], rest)
  | c :: cs => (firstMatch cs).map (fun pr => (c :: pr.1, pr.2))
  | [] => none

theorem splitGo_eq (cs : List Char) : ∀ acc, splitGo acc cs =
    (match firstMatch cs with
     | none => [acc.reverse ++ cs]
     | some (pre, rest) => (acc.reverse ++ pre) :: splitGo [] rest) := by
  induction cs using firstMatch.induct with
  | case1 rest => intro acc; simp [splitGo, firstMatch]
  | case2 rest => intro acc; simp [splitGo, firstMatch]
  | case3 rest => intro acc; simp [splitGo, firstMatch]
  | case4 rest => intro acc; simp [splitGo, firstMatch]
  | case5 c cs h1 h2 h3 h4 ih =>
    intro acc
    rw [splitGo.eq_6 acc c cs h1 h2 h3 h4, ih (c :: acc),
        firstMatch.eq_5 c cs h1 h2 h3 h4]
    cases hfm : firstMatch cs with
    | none => simp
    | some pr => rcases pr with ⟨pre, rest⟩; simp
  | case6 => intro acc; simp [splitGo, firstMatch]

theorem splitGo_ne_nil (acc cs : List Char) : splitGo acc cs ≠ [] := by
  rw [splitGo_eq]
  cases firstMatch cs with
  | none => simp
  | some pr => rcases pr with ⟨pre, rest⟩; simp

theorem getLastD_of_ne_nil {α : Type} (l : List α) (d1 d2 : α) (h : l ≠ []) :
    l.getLastD d1 = l.getLastD d2 := by
  rcases List.eq_nil_or_concat l with rfl | ⟨t, a, rfl⟩
  · exact absurd rfl h
  · simp

theorem getLastD_append_of_ne_nil {α : Type} (l1 l2 : List α) (d : α) (h : l2 ≠ []) :
    (l1 ++ l2).getLastD d = l2.getLastD d := by
  rcases List.eq_nil_or_concat l2 with rfl | ⟨t, a, rfl⟩
  · exact absurd rfl h
  · simp only [List.concat_eq_append, ← List.append_assoc]
    simp

theorem firstMatch_append (u t pre rest : List Char)
    (h : firstMatch u = some (pre, rest)) :
    firstMatch (u ++ t) = some (pre, rest ++ t) := by
  induction u using firstMatch.induct generalizing pre rest with
  | case1 r =>
    simp only [firstMatch, Option.some.injEq, Prod.mk.injEq] at h
    obtain ⟨rfl, rfl⟩ := h
    simp [firstMatch]
  | case2 r =>
    simp only [firstMatch, Option.some.injEq, Prod.mk.injEq] at h
    obtain ⟨rfl, rfl⟩ := h
    simp [firstMatch]
  | case3 r =>
    simp only [firstMatch, Option.some.injEq, Prod.mk.injEq] at h
    obtain ⟨rfl, rfl⟩ := h
    simp [firstMatch]
  | case4 r =>
    simp only [firstMatch, Option.some.injEq, Prod.mk.injEq] at h
    obtain ⟨rfl, rfl⟩ := h
    simp [firstMatch]
  | case5 c cs h1 h2 h3 h4 ih =>
    rw [firstMatch.eq_5 c cs h1 h2 h3 h4] at h
    cases hfm : firstMatch cs with
    | none => rw [hfm] at h; simp at h
    | some pr =>
      rcases pr with ⟨pre1, rest1⟩
      rw [hfm] at h
      simp only [Option.map_some', Option.some.injEq, Prod.mk.injEq] at h
      obtain ⟨rfl, rfl⟩ := h
      have g4 : ∀ r, c = '\n' → cs ++ t = '\n' :: r → False := by
        intro r hc hcs
        rcases cs with _ | ⟨c0, cs'⟩
        · simp [firstMatch] at hfm
        · simp only [List.cons_append, List.cons.injEq] at hcs
          exact h4 cs' hc (by rw [hcs.1])
      have g3 : ∀ r, c = '\n' → cs ++ t = '\r' :: '\n' :: r → False := by
        intro r hc hcs
        rcases cs with _ | ⟨c0, _ | ⟨c1, cs''⟩⟩
        · simp [firstMatch] at hfm
        · simp only [List.cons_append, List.nil_append, List.cons.injEq] at hcs
          obtain ⟨rfl, -⟩ := hcs
          simp [firstMatch] at hfm
        · simp only [List.cons_append, List.cons.injEq] at hcs
          obtain ⟨rfl, rfl, -⟩ := hcs
          exact h3 cs'' hc rfl
      have g2 : ∀ r, c = '\r' → cs ++ t = '\n' :: '\n' :: r → False := by
        intro r hc hcs
        rcases cs with _ | ⟨c0, _ | ⟨c1, cs''⟩⟩
        · simp [firstMatch] at hfm
        · simp only [List.cons_append, List.nil_append, List.cons.injEq] at hcs
          obtain ⟨rfl, -⟩ := hcs
          simp [firstMatch] at hfm
        · simp only [List.cons_append, List.cons.injEq] at hcs
          obtain ⟨rfl, rfl, -⟩ := hcs
          exact h2 cs'' hc rfl
      have g1 : ∀ r, c = '\r' → cs ++ t = '\n' :: '\r' :: '\n' :: r → False := by
        intro r hc hcs
        rcases cs with _ | ⟨c0, _ | ⟨c1, _ | ⟨c2, cs'''⟩⟩⟩
        · simp [firstMatch] at hfm
        · simp only [List.cons_append, List.nil_append, List.cons.injEq] at hcs
          obtain ⟨rfl, -⟩ := hcs
          simp [firstMatch] at hfm
        · simp only [List.cons_append, List.nil_append, List.cons.injEq] at hcs
          obtain ⟨rfl, rfl, -⟩ := hcs
          simp [firstMatch] at hfm
        · simp only [List.cons_append, List.cons.injEq] at hcs
          obtain ⟨rfl, rfl, rfl, -⟩ := hcs
          exact h1 cs''' hc rfl
      rw [List.cons_append, firstMatch.eq_5 c (cs ++ t) g1 g2 g3 g4, ih pre1 rest1 hfm]
      simp
  | case6 => simp [firstMatch] at h

theorem firstMatch_rest_lt (u pre rest : List Char)
    (h : firstMatch u = some (pre, rest)) : rest.length < u.length := by
  induction u using firstMatch.induct generalizing pre rest with
  | case1 r =>
    simp only [firstMatch, Option.some.injEq, Prod.mk.injEq] at h
    obtain ⟨rfl, rfl⟩ := h
    simp only [List.length_cons]
    omega
  | case2 r =>
    simp only [firstMatch, Option.some.injEq, Prod.mk.injEq] at h
    obtain ⟨rfl, rfl⟩ := h
    simp only [List.length_cons]
    omega
  | case3 r =>
    simp only [firstMatch, Option.some.injEq, Prod.mk.injEq] at h
    obtain ⟨rfl, rfl⟩ := h
    simp only [List.length_cons]
    omega
  | case4 r =>
    simp only [firstMatch, Option.some.injEq, Prod.mk.injEq] at h
    obtain ⟨rfl, rfl⟩ := h
    simp only [List.length_cons]
    omega
  | case5 c cs h1 h2 h3 h4 ih =>
    rw [firstMatch.eq_5 c cs h1 h2 h3 h4] at h
    cases hfm : firstMatch cs with
    | none => rw [hfm] at h; simp at h
    | some pr =>
      rcases pr with ⟨pre1, rest1⟩
      rw [hfm] at h
      simp only [Option.map_some', Option.some.injEq, Prod.mk.injEq] at h
      obtain ⟨rfl, rfl⟩ := h
      have := ih pre1 rest1 hfm
      simp only [List.length_cons]
      omega
  | case6 => simp [firstMatch] at h

theorem getLastD_cons_of_ne_nil {α : Type} (a d : α) (l : List α) (h : l ≠ []) :
    (a :: l).getLastD d = l.getLastD d := by
  rcases List.eq_nil_or_concat l with rfl | ⟨t, b, rfl⟩
  · exact absurd rfl h
  · simp only [List.concat_eq_append, List.getLastD_eq_getLast?]
    rw [show a :: (t ++ [b]) = (a :: t) ++ [b] from by simp]
    rw [List.getLast?_concat, List.getLast?_concat]

theorem splitGo_append (u t : List Char) :
    splitGo [] (u ++ t) =
      (splitGo [] u).dropLast ++ splitGo [] (((splitGo [] u).getLastD []) ++ t) := by
  suffices H : ∀ n (u : List Char), u.length ≤ n →
      splitGo [] (u ++ t) =
        (splitGo [] u).dropLast ++ splitGo [] (((splitGo [] u).getLastD []) ++ t) from
    H u.length u le_rfl
  intro n
  induction n with
  | zero =>
    intro u hu
    obtain rfl : u = [] := List.eq_nil_of_length_eq_zero (Nat.le_zero.mp hu)
    simp [splitGo]
  | succ n ih =>
    intro u hu
    cases hfm : firstMatch u with
    | none =>
      have e1 : splitGo [] u = [u] := by rw [splitGo_eq]; simp [hfm]
      rw [e1]
      simp
    | some pr =>
      rcases pr with ⟨pre, rest⟩
      have e1 : splitGo [] u = pre :: splitGo [] rest := by
        rw [splitGo_eq]; simp [hfm]
      have e2 : firstMatch (u ++ t) = some (pre, rest ++ t) :=
        firstMatch_append u t pre rest hfm
      have e3 : splitGo [] (u ++ t) = pre :: splitGo [] (rest ++ t) := by
        rw [splitGo_eq]; simp [e2]
      have hlt : rest.length < u.length := firstMatch_rest_lt u pre rest hfm
      have ihr := ih rest (by omega)
      have hne : splitGo [] rest ≠ [] := splitGo_ne_nil [] rest
      rw [e3, ihr, e1, List.dropLast_cons_of_ne_nil hne]
      rw [getLastD_cons_of_ne_nil pre ([] : List Char) _ hne]
      simp

theorem getLastD_map_mk (l : List (List Char)) :
    (l.map (fun x => String.mk x)).getLastD "" = String.mk (l.getLastD []) := by
  induction l with
  | nil => rfl
  | cons a l ih =>
    rcases l with _ | ⟨b, l2⟩
    · rfl
    · rw [List.map_cons, getLastD_cons_of_ne_nil _ _ _ (by simp),
          getLastD_cons_of_ne_nil _ _ _ (by simp)]
      exact ih

/-- C6: frame splitting is chunk-boundary invariant — splitting a
buffer into two pieces at any point, feeding them through `splitFrames`
sequentially while carrying the returned remainder forward, yields the
same ordered event sequence (and the same final remainder) as feeding
the whole buffer at once. -/
theorem c6_chunk_boundary_invariance (u v : String) :
    splitFrames (u ++ v) =
      ((splitFrames u).1 ++ (splitFrames ((splitFrames u).2 ++ v)).1,
       (splitFrames ((splitFrames u).2 ++ v)).2) := by
  simp only [splitFrames, splitEvents]
  rw [getLastD_map_mk (splitGo [] u.data)]
  rw [show (String.mk ((splitGo [] u.data).getLastD []) ++ v).data =
        (splitGo [] u.data).getLastD [] ++ v.data from rfl]
  rw [show (u ++ v).data = u.data ++ v.data from String.data_append u v]
  rw [splitGo_append u.data v.data]
  have hBne : splitGo [] ((splitGo [] u.data).getLastD [] ++ v.data) ≠ [] :=
    splitGo_ne_nil _ _
  have hBmapne :
      (splitGo [] ((splitGo [] u.data).getLastD [] ++ v.data)).map
        (fun l => String.mk l) ≠ [] := by
    simpa using hBne
  simp only [Prod.mk.injEq]
  constructor
  · rw [List.map_append, List.dropLast_append_of_ne_nil _ hBmapne, List.map_dropLast]
  · rw [getLastD_map_mk, getLastD_map_mk,
        getLastD_append_of_ne_nil _ _ _ hBne]
